import Mathlib

/-!
Verification of the buffered CSV writer (`src/lib/File.js`).

This file gives a shallow embedding of the writer's state and of its
operations `add`, `flush` and `complete`, translated function by function
from the JavaScript source, and proves properties about them.

Modelling conventions:
* JavaScript values that can appear as a row are modelled by `JsData`
  (arrays, key/value objects, the scalars, `null` and `undefined`);
  cell values are modelled by `Value` (a text-representable scalar is
  modelled by the string its `toString` produces, which loses nothing
  for the properties proved here).
* Thrown JavaScript exceptions are modelled by `JsError`; every
  operation returns the error outcome together with the state as it is
  at the throw point and the list of events emitted before it.
* The external world of one call (the value a path-producing function
  would return, the `fs.existsSync` probe, and whether the asynchronous
  `fs.writeFile`/`fs.appendFile` call will fail) is an `Env` parameter.
* The recurring `setInterval` timer is modelled only through the
  `timerFlushInterval` handle state; spontaneous timer firings are not
  modelled (claims below are about runs in which the timer does not
  fire).
-/

namespace BufferedCsv

/-- A cell value: a stringable scalar (held as its text), JavaScript
`null`, or JavaScript `undefined` (also used for an absent key). -/
inductive Value where
  | str (s : String)
  | null
  | undefined
deriving DecidableEq, Repr

/-- A JavaScript value passed to `add`: an array, a key/value object
(with insertion-ordered keys), a scalar, `undefined` or `null`. -/
inductive JsData where
  | arr (xs : List Value)
  | obj (kvs : List (String × Value))
  | str (s : String)
  | num (n : Int)
  | bool (b : Bool)
  | undefined
  | null
deriving DecidableEq, Repr

/-- The exceptions the source can throw: `'missing option: path.'`,
`'file_not_open'`, `'invalid_data'`, `'not_a_string'`, and the runtime
`TypeError`s JavaScript itself raises (e.g. `Object.keys(null)` or
reading `.quoted` of `undefined`). -/
inductive JsError where
  | missingPath
  | file_not_open
  | invalid_data
  | not_a_string
  | typeError
deriving DecidableEq, Repr

/-- Per-field configuration: whether values of the field are quoted. -/
structure FieldDef where
  quoted : Bool
deriving DecidableEq, Repr

/-- The field schema: an insertion-ordered association list from field
name to its configuration (a JavaScript object with string keys keeps
insertion order, so an ordered list is the faithful model). -/
abbrev Fields := List (String × FieldDef)

/-- The `path` option: a string literal or a zero-argument function
(whose per-call return value is supplied by the environment). -/
inductive PathOption where
  | str (p : String)
  | func
deriving DecidableEq, Repr

/-- The `timerFlushInterval` private field: never assigned
(JavaScript `undefined`), an active `setInterval` handle, or `null`
after `clearInterval`. -/
inductive TimerState where
  | unset
  | active
  | cleared
deriving DecidableEq, Repr

/-- The mode of a dispatched storage write: `fs.writeFile` (overwrite)
or `fs.appendFile` (append). -/
inductive WriteMode where
  | overwrite
  | append
deriving DecidableEq, Repr

/-- Observable effects of one operation, in order: the `'data'`
notification, the dispatched storage write, and the `'error'`
notification from the write callback when the write fails. -/
inductive Event where
  | data (path csv : String)
  | write (path csv : String) (mode : WriteMode) (encoding : String)
  | error (path csv : String)
deriving DecidableEq, Repr

/-- True exactly for the `'data'` notification. -/
def Event.isData : Event → Bool
  | .data _ _ => true
  | _ => false

/-- The external world as one call observes it: what the
path-producing function returns on this call, the synchronous
`fs.existsSync` probe, and which destinations' asynchronous writes
fail. -/
structure Env where
  resolvedPath : String
  fsExists : String → Bool
  writeFails : String → Bool

/-- The full state of a `File` instance: the constructor options (own
properties of `this` in the source) and the private-parts state
(`lastPath`, `buffer`, `timerFlushInterval`, `open`). The `open` flag
is named `isOpen` here. -/
structure FileState where
  encoding : String
  delimeter : String
  quote : String
  escape : String
  nullValue : String
  eol : String
  headers : Bool
  overwrite : Bool
  fields : Fields
  flushInterval : Nat
  flushLines : Nat
  path : PathOption
  lastPath : Option String
  buffer : List (List Value)
  timerFlushInterval : TimerState
  isOpen : Bool
deriving DecidableEq, Repr

/-- The options object passed to the constructor. Each field is `none`
when the caller did not supply that key. The field `delimiter` models
the correctly-spelled key a caller may put in the options object; the
source only ever reads the key spelled `delimeter`. -/
structure Options where
  encoding : Option String := none
  delimeter : Option String := none
  delimiter : Option String := none
  quote : Option String := none
  escape : Option String := none
  nullValue : Option String := none
  eol : Option String := none
  headers : Option Bool := none
  overwrite : Option Bool := none
  fields : Option Fields := none
  flushInterval : Option Nat := none
  flushLines : Option Nat := none
  path : Option PathOption := none

/-- Whether `pat` occurs at the start of `s`. -/
def matchesAt : List Char → List Char → Bool
  | [], _ => true
  | _ :: _, [] => false
  | p :: ps, c :: cs => p == c && matchesAt ps cs

/-- JavaScript `String.prototype.replace` with a string pattern:
replace the first occurrence of `pat` in the subject with `rep` (an
empty pattern matches at position 0), leaving the rest unchanged. -/
def replaceFirstChars (pat rep : List Char) : List Char → List Char
  | [] => if matchesAt pat [] then rep else []
  | c :: cs =>
    if matchesAt pat (c :: cs) then rep ++ (c :: cs).drop pat.length
    else c :: replaceFirstChars pat rep cs

/-- String version of `replaceFirstChars`. -/
def replaceFirst (s pat rep : String) : String :=
  String.mk (replaceFirstChars pat.data rep.data s.data)

/-- JavaScript `Array.prototype.join` with separator `sep`. -/
def joinWith (sep : String) : List String → String
  | [] => ""
  | [x] => x
  | x :: y :: xs => x ++ sep ++ joinWith sep (y :: xs)

/-- JavaScript `typeof`. Note `typeof null` is `"object"`. -/
def jsTypeof : JsData → String
  | .arr _ => "object"
  | .obj _ => "object"
  | .null => "object"
  | .str _ => "string"
  | .num _ => "number"
  | .bool _ => "boolean"
  | .undefined => "undefined"

/-- JavaScript property read `kvs[name]` on an object: the stored
value, or `undefined` when the key is absent. -/
def jsIndex (kvs : List (String × Value)) (name : String) : Value :=
  match kvs.find? (fun p => p.1 == name) with
  | some p => p.2
  | none => .undefined

/-- The enumerable own entries of a non-array value, as
`Object.keys`/property reads see them: an object yields its entries, a
string yields its character positions, a number or boolean yields
nothing, and `Object.keys` on `null`/`undefined` throws a `TypeError`.
(Arrays are filtered out before this is reached in the source.) -/
def jsEntries : JsData → Except JsError (List (String × Value))
  | .obj kvs => .ok kvs
  | .str s => .ok (s.data.enum.map (fun ic => (toString ic.1, Value.str (String.mk [ic.2]))))
  | .num _ => .ok []
  | .bool _ => .ok []
  | .arr _ => .ok []
  | .null => .error .typeError
  | .undefined => .error .typeError

/-- Whether the schema already has a field of this name
(`_that.fields[name] !== undefined` in the source). -/
def fieldsHas (fs : Fields) (name : String) : Bool :=
  (fs.find? (fun p => p.1 == name)).isSome

/-- `_autodetectFields` from the source: append, in input order, every
key not already present, with `quoted = true`. -/
def _autodetectFields (fs : Fields) (names : List String) : Fields :=
  names.foldl (fun acc name => if fieldsHas acc name then acc else acc ++ [(name, ⟨true⟩)]) fs

/-- `_buildLinedata` from the source, factored to return the updated
schema alongside the line (the source mutates `this.fields` through
`_autodetectFields`): an array passes through unchanged; anything else
has its keys detected and is read back per schema field in schema
order. -/
def _buildLinedata (fs : Fields) (data : JsData) : Except JsError (Fields × List Value) :=
  match data with
  | .arr xs => .ok (fs, xs)
  | other =>
    match jsEntries other with
    | .error e => .error e
    | .ok kvs =>
      let fs2 := _autodetectFields fs (kvs.map Prod.fst)
      .ok (fs2, fs2.map (fun nf => jsIndex kvs nf.1))

/-- `_enquote` from the source: surround with the quote character,
escaping via a single (non-global) `String.prototype.replace` of the
quote by escape-then-quote. Values reaching it in this model are
already strings, so the `'not_a_string'` throw cannot fire. -/
def _enquote (q esc : String) (value : String) : String :=
  q ++ replaceFirst value q (esc ++ q) ++ q

/-- `_generateCsvHeaders` from the source: the quoted field names
joined by the delimiter, plus the line terminator. -/
def _generateCsvHeaders (s : FileState) : String :=
  joinWith s.delimeter (s.fields.map (fun nf => _enquote s.quote s.escape nf.1)) ++ s.eol

/-- One cell of `_generateCsvData`: `undefined`/`null` render as the
null token; otherwise the field at this position decides quoting, and
a missing field (`this.fields[fieldIndices[index]]` being `undefined`)
makes the `.quoted` read throw a `TypeError`. -/
def _renderValue (s : FileState) (fieldNames : List String) (index : Nat) (v : Value) : Except JsError String :=
  match v with
  | .undefined => .ok s.nullValue
  | .null => .ok s.nullValue
  | .str str =>
    match fieldNames.get? index with
    | none => .error .typeError
    | some name =>
      match s.fields.find? (fun p => p.1 == name) with
      | none => .error .typeError
      | some nf => .ok (if nf.2.quoted then _enquote s.quote s.escape str else str)

/-- Index-carrying effectful map used to model
`lineData.map(function(value, index) ...)`. -/
def exceptMapIdx (f : Nat → Value → Except JsError String) : Nat → List Value → Except JsError (List String)
  | _, [] => .ok []
  | i, v :: vs =>
    match f i v with
    | .error e => .error e
    | .ok c =>
      match exceptMapIdx f (i + 1) vs with
      | .error e => .error e
      | .ok cs => .ok (c :: cs)

/-- One line of `_generateCsvData`: render each buffered value by
position, pad short lines with the null token up to the schema size,
join with the delimiter and append the line terminator. -/
def _renderLine (s : FileState) (lineData : List Value) : Except JsError String :=
  let fieldNames := s.fields.map Prod.fst
  match exceptMapIdx (_renderValue s fieldNames) 0 lineData with
  | .error e => .error e
  | .ok cells =>
    .ok (joinWith s.delimeter (cells ++ List.replicate (fieldNames.length - cells.length) s.nullValue) ++ s.eol)

/-- Effectful map over a list, stopping at the first thrown error
(models a JavaScript `map` whose callback can throw). -/
def exceptMapList (f : α → Except JsError β) : List α → Except JsError (List β)
  | [] => .ok []
  | x :: xs =>
    match f x with
    | .error e => .error e
    | .ok y =>
      match exceptMapList f xs with
      | .error e => .error e
      | .ok ys => .ok (y :: ys)

/-- `_generateCsvData` from the source: the rendered buffered lines
concatenated in buffer order (`join('')`). -/
def _generateCsvData (s : FileState) : Except JsError String :=
  match exceptMapList (_renderLine s) s.buffer with
  | .error e => .error e
  | .ok lines => .ok (String.join lines)

/-- `_getPath` from the source: the string literal, or the value the
path-producing function returns on this call. -/
def _getPath (env : Env) (s : FileState) : String :=
  match s.path with
  | .str p => p
  | .func => env.resolvedPath

/-- `flush` from the source. Requires open; does nothing on an empty
buffer; otherwise resolves the destination, prepends the header iff
headers are on, the destination differs from `lastPath`, and
(overwrite is on or the destination exists); clears the buffer; emits
`'data'`; dispatches `fs.writeFile` (overwrite on, destination
changed) or `fs.appendFile`; and records `lastPath` unconditionally.
A `TypeError` thrown while rendering leaves the state untouched. -/
def flush (env : Env) (s : FileState) : Except JsError Unit × FileState × List Event :=
  if s.isOpen = true then
    if s.buffer.length = 0 then (.ok (), s, [])
    else
      let path := _getPath env s
      let header :=
        if s.headers = true ∧ s.lastPath ≠ some path ∧ (s.overwrite = true ∨ env.fsExists path = true) then
          _generateCsvHeaders s
        else ""
      match _generateCsvData s with
      | .error e => (.error e, s, [])
      | .ok body =>
        let csv := header ++ body
        let mode := if s.overwrite = true ∧ s.lastPath ≠ some path then WriteMode.overwrite else WriteMode.append
        let events := [Event.data path csv, Event.write path csv mode s.encoding]
          ++ (if env.writeFails path = true then [Event.error path csv] else [])
        (.ok (), { s with buffer := [], lastPath := some path }, events)
  else (.error .file_not_open, s, [])

/-- `add` from the source. Requires open; rejects non-`"object"`
`typeof`s with `'invalid_data'`; builds and buffers the line; then
flushes when the buffer length strictly exceeds a positive
`flushLines`, or, failing that, when both thresholds are zero. -/
def add (env : Env) (s : FileState) (data : JsData) : Except JsError Unit × FileState × List Event :=
  if s.isOpen = true then
    if jsTypeof data ≠ "object" then (.error .invalid_data, s, [])
    else
      match _buildLinedata s.fields data with
      | .error e => (.error e, s, [])
      | .ok (fs2, line) =>
        let s2 := { s with fields := fs2, buffer := s.buffer ++ [line] }
        if s2.flushLines > 0 ∧ s2.buffer.length > s2.flushLines then flush env s2
        else if s2.flushLines = 0 ∧ s2.flushInterval = 0 then flush env s2
        else (.ok (), s2, [])
  else (.error .file_not_open, s, [])

/-- `complete` from the source. Requires open; clears the interval
timer (the source's `!== null` check also covers the never-set case);
performs a final flush; and only if that flush returns closes the
file. -/
def complete (env : Env) (s : FileState) : Except JsError Unit × FileState × List Event :=
  if s.isOpen = true then
    let s1 := if s.timerFlushInterval ≠ TimerState.cleared then { s with timerFlushInterval := TimerState.cleared } else s
    match flush env s1 with
    | (.ok _, s2, evs) => (.ok (), { s2 with isOpen := false }, evs)
    | (.error e, s2, evs) => (.error e, s2, evs)
  else (.error .file_not_open, s, [])

/-- The constructor (`_getOptions` followed by `_open`): defaults are
supplemented, construction fails without a `path`, and the private
state starts with no last path, an empty buffer, an interval timer
exactly when `flushInterval > 0`, and the file open. `osEOL` models
`require('os').EOL`. -/
def newFile (options : Options) (osEOL : String) : Except JsError FileState :=
  match options.path with
  | none => .error .missingPath
  | some p =>
    .ok {
      encoding := options.encoding.getD "utf8",
      delimeter := options.delimeter.getD ",",
      quote := options.quote.getD "\"",
      escape := options.escape.getD "\\",
      nullValue := options.nullValue.getD "NULL",
      eol := options.eol.getD osEOL,
      headers := options.headers.getD true,
      overwrite := options.overwrite.getD true,
      fields := options.fields.getD [],
      flushInterval := options.flushInterval.getD 0,
      flushLines := options.flushLines.getD 0,
      path := p,
      lastPath := none,
      buffer := [],
      timerFlushInterval := if 0 < options.flushInterval.getD 0 then .active else .unset,
      isOpen := true }

/-- Driver for a sequence of `add` calls with no explicit `flush` in
between: runs the adds left to right, collecting events, stopping at
the first thrown error (which in JavaScript propagates to the
caller). -/
def runAdds (env : Env) (s : FileState) : List JsData → Except JsError Unit × FileState × List Event
  | [] => (.ok (), s, [])
  | d :: ds =>
    match add env s d with
    | (.ok _, s1, evs1) =>
      let r := runAdds env s1 ds
      (r.1, r.2.1, evs1 ++ r.2.2)
    | (.error e, s1, evs1) => (.error e, s1, evs1)

/-- Schema-level normalization of a sequence of rows: the schema after
all inferences together with each row's buffered (positional) form,
each built against the schema as it stood when that row arrived. -/
def normalizeListF (fs : Fields) : List JsData → Except JsError (Fields × List (List Value))
  | [] => .ok (fs, [])
  | d :: ds =>
    match _buildLinedata fs d with
    | .error e => .error e
    | .ok (fs1, line) =>
      match normalizeListF fs1 ds with
      | .error e => .error e
      | .ok (fs2, lines) => .ok (fs2, line :: lines)

/-! ## Named pieces of a dispatching `flush`, and concrete scenario
states used by witnesses and counterexamples -/

/-- The header text a dispatching `flush` prepends (possibly empty). -/
def flushHeader (env : Env) (s : FileState) : String :=
  if s.headers = true ∧ s.lastPath ≠ some (_getPath env s) ∧
      (s.overwrite = true ∨ env.fsExists (_getPath env s) = true) then
    _generateCsvHeaders s
  else ""

/-- The write mode a dispatching `flush` selects. -/
def flushMode (env : Env) (s : FileState) : WriteMode :=
  if s.overwrite = true ∧ s.lastPath ≠ some (_getPath env s) then WriteMode.overwrite
  else WriteMode.append

/-- The events a dispatching `flush` emits for rendered body `body`. -/
def flushEvents (env : Env) (s : FileState) (body : String) : List Event :=
  [Event.data (_getPath env s) (flushHeader env s ++ body),
   Event.write (_getPath env s) (flushHeader env s ++ body) (flushMode env s) s.encoding]
  ++ (if env.writeFails (_getPath env s) = true then
        [Event.error (_getPath env s) (flushHeader env s ++ body)] else [])

/-- A concrete environment: the destination does not yet exist and
writes succeed. -/
def env3 : Env := { resolvedPath := "x", fsExists := fun _ => false, writeFails := fun _ => false }

/-- The state `new File({path: 'test.csv', flushLines: 2})` produces
(with platform end-of-line `"\n"`). -/
def st3 : FileState :=
  { encoding := "utf8", delimeter := ",", quote := "\"", escape := "\\", nullValue := "NULL",
    eol := "\n", headers := true, overwrite := true, fields := [], flushInterval := 0,
    flushLines := 2, path := .str "test.csv", lastPath := none, buffer := [],
    timerFlushInterval := .unset, isOpen := true }

/-- `st3` with a row-count threshold of 1. -/
def st2 : FileState := { st3 with flushLines := 1 }

/-- `st3` after one map row `{Name: "A"}` was buffered. -/
def st1 : FileState := { st3 with fields := [("Name", ⟨true⟩)], buffer := [[Value.str "A"]] }

/-- `st3` after `complete()` has closed it. -/
def stClosed : FileState := { st3 with isOpen := false }

/-- Options carrying the correctly-spelled `delimiter` key (which the
source never reads) and a two-field schema. -/
def opts6 : Options :=
  { path := some (PathOption.str "f.csv"), delimiter := some ";",
    fields := some [("a", ⟨true⟩), ("b", ⟨true⟩)] }

/-- The state `opts6` constructs: separator `","`, since the `delimiter`
key is never read. -/
def st6 : FileState :=
  { encoding := "utf8", delimeter := ",", quote := "\"", escape := "\\", nullValue := "NULL",
    eol := "\n", headers := true, overwrite := true, fields := [("a", ⟨true⟩), ("b", ⟨true⟩)],
    flushInterval := 0, flushLines := 0, path := .str "f.csv", lastPath := none, buffer := [],
    timerFlushInterval := .unset, isOpen := true }

/-! ## Helper lemmas about `flush` -/

/-- A `flush` in the closed state throws `'file_not_open'` and changes
nothing. -/
theorem flush_closed (env : Env) (s : FileState) (h : s.isOpen = false) :
    flush env s = (.error .file_not_open, s, []) := by
  simp [flush, h]

/-- A `flush` on an empty buffer is a no-op with no events. -/
theorem flush_empty (env : Env) (s : FileState) (h : s.isOpen = true) (h2 : s.buffer = []) :
    flush env s = (.ok (), s, []) := by
  simp [flush, h, h2]

/-- A `flush` with something to render and a successful rendering
dispatches the write: it clears the buffer, records the destination,
and emits the events. -/
theorem flush_dispatch (env : Env) (s : FileState) (body : String)
    (h1 : s.isOpen = true) (h2 : s.buffer ≠ []) (h3 : _generateCsvData s = .ok body) :
    flush env s = (.ok (), { s with buffer := [], lastPath := some (_getPath env s) },
      flushEvents env s body) := by
  simp [flush, h1, List.length_eq_zero, h2, h3, flushEvents, flushHeader, flushMode]

/-- A `flush` whose rendering throws propagates the error, changing
nothing and emitting nothing. -/
theorem flush_render_error (env : Env) (s : FileState) (e : JsError)
    (h1 : s.isOpen = true) (h2 : s.buffer ≠ []) (h3 : _generateCsvData s = .error e) :
    flush env s = (.error e, s, []) := by
  simp [flush, h1, List.length_eq_zero, h2, h3]

/-- Complete case analysis of `flush`: closed, empty buffer, rendering
throw, or a dispatched write. -/
theorem flush_cases (env : Env) (s : FileState) :
    (s.isOpen = false ∧ flush env s = (.error .file_not_open, s, [])) ∨
    (s.isOpen = true ∧ s.buffer = [] ∧ flush env s = (.ok (), s, [])) ∨
    (∃ e, s.isOpen = true ∧ s.buffer ≠ [] ∧ _generateCsvData s = .error e ∧
      flush env s = (.error e, s, [])) ∨
    (∃ body, s.isOpen = true ∧ s.buffer ≠ [] ∧ _generateCsvData s = .ok body ∧
      flush env s = (.ok (), { s with buffer := [], lastPath := some (_getPath env s) },
        flushEvents env s body)) := by
  by_cases h1 : s.isOpen = true
  · by_cases h2 : s.buffer = []
    · exact Or.inr (Or.inl ⟨h1, h2, flush_empty env s h1 h2⟩)
    · cases h3 : _generateCsvData s with
      | error e =>
        exact Or.inr (Or.inr (Or.inl ⟨e, h1, h2, rfl, flush_render_error env s e h1 h2 h3⟩))
      | ok body =>
        exact Or.inr (Or.inr (Or.inr ⟨body, h1, h2, rfl, flush_dispatch env s body h1 h2 h3⟩))
  · refine Or.inl ⟨?_, ?_⟩
    · simpa using h1
    · exact flush_closed env s (by simpa using h1)

/-- A `flush` changes at most the buffer and the last-written path. -/
theorem flush_state_eq (env : Env) (s : FileState) :
    (flush env s).2.1 =
      { s with buffer := (flush env s).2.1.buffer, lastPath := (flush env s).2.1.lastPath } := by
  rcases flush_cases env s with ⟨_, h⟩ | ⟨_, _, h⟩ | ⟨e, _, _, _, h⟩ | ⟨body, _, _, _, h⟩ <;> rw [h]

/-- A `flush` that throws has changed nothing and emitted nothing. -/
theorem flush_error_state (env : Env) (s : FileState) (e : JsError)
    (h : (flush env s).1 = .error e) :
    (flush env s).2.1 = s ∧ (flush env s).2.2 = [] := by
  rcases flush_cases env s with ⟨_, hf⟩ | ⟨_, _, hf⟩ | ⟨e2, _, _, _, hf⟩ | ⟨body, _, _, _, hf⟩ <;>
    rw [hf] <;> simp_all

/-- A `flush` that returns normally leaves the buffer empty and the
open flag unchanged. -/
theorem flush_ok_buffer (env : Env) (s : FileState)
    (h : (flush env s).1 = .ok ()) :
    (flush env s).2.1.buffer = [] ∧ (flush env s).2.1.isOpen = s.isOpen := by
  rcases flush_cases env s with ⟨_, hf⟩ | ⟨_, hb, hf⟩ | ⟨e2, _, _, _, hf⟩ | ⟨body, _, _, _, hf⟩ <;>
    rw [hf] <;> simp_all

/-- Cell rendering only ever throws the `TypeError` of reading
`.quoted` on a missing field. -/
theorem renderValue_error_eq (s : FileState) (ns : List String) (i : Nat) (v : Value)
    (e : JsError) (h : _renderValue s ns i v = .error e) : e = .typeError := by
  cases v with
  | str str =>
    simp only [_renderValue] at h
    split at h
    · simp at h
      exact h.symm
    · split at h
      · simp at h
        exact h.symm
      · simp at h
  | null => simp [_renderValue] at h
  | undefined => simp [_renderValue] at h

/-- Lifts `renderValue_error_eq` through the indexed map. -/
theorem exceptMapIdx_error_eq (s : FileState) (ns : List String) :
    ∀ (vs : List Value) (i : Nat) (e : JsError),
      exceptMapIdx (_renderValue s ns) i vs = .error e → e = .typeError := by
  intro vs
  induction vs with
  | nil => intro i e h; simp [exceptMapIdx] at h
  | cons v vs ih =>
    intro i e h
    unfold exceptMapIdx at h
    split at h
    · rename_i heq
      cases h
      exact renderValue_error_eq s ns i v e heq
    · split at h
      · rename_i heq
        cases h
        exact ih (i + 1) e heq
      · simp_all

/-- Line rendering only ever throws a `TypeError`. -/
theorem renderLine_error_eq (s : FileState) (lineData : List Value) (e : JsError)
    (h : _renderLine s lineData = .error e) : e = .typeError := by
  simp only [_renderLine] at h
  split at h
  · rename_i heq
    cases h
    exact exceptMapIdx_error_eq s _ lineData 0 e heq
  · simp at h

/-- An erroring `exceptMapList` exposes an erroring element. -/
theorem exceptMapList_error {α β : Type} (f : α → Except JsError β) :
    ∀ (xs : List α) (e : JsError), exceptMapList f xs = .error e →
      ∃ x, x ∈ xs ∧ f x = .error e := by
  intro xs
  induction xs with
  | nil => intro e h; simp [exceptMapList] at h
  | cons x xs ih =>
    intro e h
    unfold exceptMapList at h
    split at h
    · rename_i heq
      cases h
      exact ⟨x, List.mem_cons_self x xs, heq⟩
    · split at h
      · rename_i heq
        cases h
        obtain ⟨y, hy, hfy⟩ := ih e heq
        exact ⟨y, List.mem_cons_of_mem x hy, hfy⟩
      · simp_all

/-- Rendering the buffer only ever throws a `TypeError`. -/
theorem generateCsvData_error_eq (s : FileState) (e : JsError)
    (h : _generateCsvData s = .error e) : e = .typeError := by
  unfold _generateCsvData at h
  split at h
  · rename_i heq
    cases h
    obtain ⟨x, _, hx⟩ := exceptMapList_error (_renderLine s) s.buffer e heq
    exact renderLine_error_eq s x e hx
  · simp_all

/-- `flush` never throws `'invalid_data'`. -/
theorem flush_not_invalid (env : Env) (s : FileState) :
    (flush env s).1 ≠ .error .invalid_data := by
  rcases flush_cases env s with ⟨_, hf⟩ | ⟨_, _, hf⟩ | ⟨e, _, _, hg, hf⟩ | ⟨body, _, _, _, hf⟩ <;>
    rw [hf]
  · simp
  · simp
  · have := generateCsvData_error_eq s e hg
    simp [this]
  · simp

/-- The resolved destination does not depend on the write-failure
oracle of the environment. -/
theorem getPath_writeFails (env : Env) (wf : String → Bool) (s : FileState) :
    _getPath { env with writeFails := wf } s = _getPath env s := by
  cases hp : s.path <;> simp [_getPath, hp]

/-- `complete` in the open state: clear the timer, flush, and close
the file if the flush returned. -/
theorem complete_open (env : Env) (s : FileState) (h : s.isOpen = true) :
    complete env s =
      match flush env { s with timerFlushInterval := TimerState.cleared } with
      | (.ok _, s2, evs) => (.ok (), { s2 with isOpen := false }, evs)
      | (.error e, s2, evs) => (.error e, s2, evs) := by
  have hs1eq : (if s.timerFlushInterval ≠ TimerState.cleared then
      { s with timerFlushInterval := TimerState.cleared } else s) =
      { s with timerFlushInterval := TimerState.cleared } := by
    split
    · rfl
    · rename_i h2
      simp only [ne_eq, not_not] at h2
      rw [← h2]
  unfold complete
  rw [if_pos h, hs1eq]

/-- An `add` in the closed state throws `'file_not_open'` and changes
nothing. -/
theorem add_closed (env : Env) (s : FileState) (d : JsData) (h : s.isOpen = false) :
    add env s d = (.error .file_not_open, s, []) := by
  simp [add, h]

/-- A `complete` in the closed state throws `'file_not_open'` and
changes nothing. -/
theorem complete_closed (env : Env) (s : FileState) (h : s.isOpen = false) :
    complete env s = (.error .file_not_open, s, []) := by
  simp [complete, h]

/-! ## Claim theorems -/

/-- C1: for every `flush()` call with a non-empty buffer (whose
rendering returns), the emitted output is the rendered rows prefixed
by the header line exactly when headers are enabled AND the resolved
destination differs from the last-written destination AND (overwrite
mode is enabled OR the destination already exists in storage);
otherwise it is the rendered rows only. -/
theorem flush_header_emission_iff (env : Env) (s : FileState)
    (hOpen : s.isOpen = true) (hBuf : s.buffer ≠ []) (body : String)
    (hBody : _generateCsvData s = .ok body) :
    (flush env s).2.2.head? = some (Event.data (_getPath env s)
      ((if s.headers = true ∧ s.lastPath ≠ some (_getPath env s) ∧
          (s.overwrite = true ∨ env.fsExists (_getPath env s) = true)
        then _generateCsvHeaders s else "") ++ body)) := by
  rw [flush_dispatch env s body hOpen hBuf hBody]
  simp [flushEvents, flushHeader]

/-- Witness for C1 at a concrete state: one buffered row, fresh
destination, overwrite on, so the header line is prepended. -/
theorem flush_header_emission_iff_witness :
    (flush env3 st1).2.2.head? =
      some (Event.data "test.csv" ("\"Name\"" ++ "\n" ++ "\"A\"" ++ "\n")) := by
  have h := flush_header_emission_iff env3 st1 rfl (by decide) ("\"A\"" ++ "\n") rfl
  simpa using h

/-- C7: every `flush()` that dispatches a write records the resolved
destination as the last-written destination, and the resulting state
does not depend on whether the asynchronous write fails. -/
theorem flush_records_lastPath (env : Env) (s : FileState)
    (hOpen : s.isOpen = true) (hBuf : s.buffer ≠ []) (body : String)
    (hBody : _generateCsvData s = .ok body) :
    (flush env s).2.1.lastPath = some (_getPath env s) ∧
    ∀ wf : String → Bool,
      (flush { env with writeFails := wf } s).2.1 = (flush env s).2.1 := by
  constructor
  · rw [flush_dispatch env s body hOpen hBuf hBody]
  · intro wf
    rw [flush_dispatch env s body hOpen hBuf hBody,
      flush_dispatch { env with writeFails := wf } s body hOpen hBuf hBody]
    simp [getPath_writeFails env wf s]

/-- Witness for C7 at a concrete state, against an environment whose
writes all fail: the destination is recorded anyway. -/
theorem flush_records_lastPath_witness :
    (flush { env3 with writeFails := fun _ => true } st1).2.1.lastPath = some "test.csv" := by
  have h := flush_records_lastPath { env3 with writeFails := fun _ => true } st1 rfl (by decide)
    ("\"A\"" ++ "\n") rfl
  exact h.1

/-- C10: a `flush()` changes at most the row buffer and the
last-written destination (never the schema or any configuration
value); a flush on an empty buffer changes nothing and emits nothing;
a throwing flush changes nothing and emits nothing; a returning flush
leaves the buffer empty. -/
theorem flush_frame (env : Env) (s : FileState) :
    ((flush env s).2.1 = { s with buffer := (flush env s).2.1.buffer, lastPath := (flush env s).2.1.lastPath }) ∧
    (s.isOpen = true → s.buffer = [] → flush env s = (.ok (), s, [])) ∧
    (∀ e, (flush env s).1 = .error e → (flush env s).2.1 = s ∧ (flush env s).2.2 = []) ∧
    ((flush env s).1 = .ok () → (flush env s).2.1.buffer = []) :=
  ⟨flush_state_eq env s, fun h1 h2 => flush_empty env s h1 h2,
   fun e h => flush_error_state env s e h, fun h => (flush_ok_buffer env s h).1⟩

/-- Witness for C10 at a concrete open state with an empty buffer: the
flush is a complete no-op. -/
theorem flush_frame_witness : flush env3 st3 = (.ok (), st3, []) :=
  (flush_frame env3 st3).2.1 rfl rfl

/-- C8: the lifecycle is `Open → Closed` with `Closed` terminal:
`add`, `flush` and `complete` all throw `'file_not_open'` in `Closed`
and change nothing (so nothing can reopen the file); `complete` in
`Open` clears the interval timer, performs the final flush, and — when
that flush returns — leaves the file closed with an empty buffer. -/
theorem lifecycle_open_closed (env : Env) (s : FileState) (d : JsData) :
    (s.isOpen = false →
      add env s d = (.error .file_not_open, s, []) ∧
      flush env s = (.error .file_not_open, s, []) ∧
      complete env s = (.error .file_not_open, s, [])) ∧
    (s.isOpen = true →
      (complete env s).2.1.timerFlushInterval = TimerState.cleared ∧
      ((complete env s).1 = .ok () →
        (complete env s).2.1.isOpen = false ∧ (complete env s).2.1.buffer = [])) := by
  constructor
  · intro h
    exact ⟨add_closed env s d h, flush_closed env s h, complete_closed env s h⟩
  · intro h
    rw [complete_open env s h]
    cases hf : flush env { s with timerFlushInterval := TimerState.cleared } with
    | mk r rest =>
      cases rest with
      | mk s2 evs =>
        have hts : s2.timerFlushInterval = TimerState.cleared := by
          have h2 := flush_state_eq env { s with timerFlushInterval := TimerState.cleared }
          rw [hf] at h2
          rw [show s2 = (r, s2, evs).2.1 from rfl, h2]
        constructor
        · cases r with
          | ok u => exact hts
          | error e => exact hts
        · intro hok
          cases r with
          | ok u =>
            have hb := flush_ok_buffer env { s with timerFlushInterval := TimerState.cleared }
              (by rw [hf])
            rw [hf] at hb
            exact ⟨rfl, hb.1⟩
          | error e => simp at hok

/-- Witness for C8 at a concrete closed state and a concrete open
state. -/
theorem lifecycle_open_closed_witness :
    add env3 stClosed (JsData.arr []) = (.error .file_not_open, stClosed, []) ∧
    ((complete env3 st3).2.1.timerFlushInterval = TimerState.cleared ∧
      (complete env3 st3).2.1.isOpen = false) :=
  ⟨((lifecycle_open_closed env3 stClosed (JsData.arr [])).1 rfl).1,
   ((lifecycle_open_closed env3 st3 (JsData.arr [])).2 rfl).1,
   (((lifecycle_open_closed env3 st3 (JsData.arr [])).2 rfl).2 rfl).1⟩

/-- `matchesAt` of a one-character pattern is character equality. -/
theorem matchesAt_singleton (q c : Char) (cs : List Char) :
    matchesAt [q] (c :: cs) = (q == c) := by
  simp [matchesAt]

/-- A single-replacement with a pattern that does not occur leaves the
subject unchanged. -/
theorem replaceFirst_no_occ (q : Char) (rep : List Char) :
    ∀ s : List Char, q ∉ s → replaceFirstChars [q] rep s = s := by
  intro s
  induction s with
  | nil => intro _; rfl
  | cons c cs ih =>
    intro h
    simp only [List.mem_cons, not_or] at h
    have hqc : (q == c) = false := by simpa using h.1
    simp [replaceFirstChars, matchesAt_singleton, hqc, ih h.2]

/-- A single-replacement rewrites exactly the first occurrence of the
pattern character and leaves everything after it untouched. -/
theorem replaceFirst_first_occ (q : Char) (rep : List Char) :
    ∀ a b : List Char, q ∉ a →
      replaceFirstChars [q] rep (a ++ q :: b) = a ++ rep ++ b := by
  intro a
  induction a with
  | nil =>
    intro b _
    simp [replaceFirstChars, matchesAt]
  | cons c cs ih =>
    intro b h
    simp only [List.mem_cons, not_or] at h
    have hqc : (q == c) = false := by simpa using h.1
    simp [replaceFirstChars, matchesAt_singleton, hqc, ih b h.2]

/-- C4: a non-null value in a quoted column renders as
`quote + escape(toString(v)) + quote`, where `escape` replaces only
the first occurrence of the quote character by escape-char followed by
quote-char, leaving later occurrences unescaped. -/
theorem enquote_single_escape (s : FileState) (fieldNames : List String) (i : Nat)
    (name : String) (nf : String × FieldDef) (q : Char) (v : String) (a b : List Char)
    (hn : fieldNames.get? i = some name)
    (hf : s.fields.find? (fun p => p.1 == name) = some nf)
    (hqt : nf.2.quoted = true)
    (hquote : s.quote = String.mk [q]) :
    (_renderValue s fieldNames i (Value.str v) = .ok (_enquote s.quote s.escape v)) ∧
    (v.data = a ++ q :: b → q ∉ a →
      _enquote s.quote s.escape v = String.mk ([q] ++ a ++ s.escape.data ++ [q] ++ b ++ [q])) ∧
    (q ∉ v.data → _enquote s.quote s.escape v = String.mk ([q] ++ v.data ++ [q])) := by
  refine ⟨?_, ?_, ?_⟩
  · simp only [List.get?_eq_getElem?] at hn
    simp [_renderValue, hn, hf, hqt]
  · intro hv ha
    apply String.ext
    simp only [_enquote, replaceFirst, String.data_append, hquote, hv]
    rw [replaceFirst_first_occ q _ a b ha]
    simp
  · intro hv
    apply String.ext
    simp only [_enquote, replaceFirst, String.data_append, hquote]
    rw [replaceFirst_no_occ q _ v.data hv]

/-- Witness for C4 on the value `A"B"C` with the default quote and
escape characters: only the first embedded quote is escaped. -/
theorem enquote_single_escape_witness :
    _enquote st1.quote st1.escape (String.mk (['A'] ++ '"' :: ['B', '"', 'C'])) =
      String.mk (['"'] ++ ['A'] ++ st1.escape.data ++ ['"'] ++ ['B', '"', 'C'] ++ ['"']) := by
  have h := enquote_single_escape st1 ["Name"] 0 "Name" ("Name", ⟨true⟩) '"'
    (String.mk (['A'] ++ '"' :: ['B', '"', 'C'])) ['A'] ['B', '"', 'C'] rfl rfl rfl rfl
  exact h.2.1 rfl (by decide)

/-- `_buildLinedata` only ever throws the `TypeError` of
`Object.keys` on `null`/`undefined`. -/
theorem buildLinedata_error_eq (fs : Fields) (d : JsData) (e : JsError)
    (h : _buildLinedata fs d = .error e) : e = .typeError := by
  cases d with
  | arr xs => simp [_buildLinedata] at h
  | obj kvs => simp [_buildLinedata, jsEntries] at h
  | str s2 => simp [_buildLinedata, jsEntries] at h
  | num n => simp [_buildLinedata, jsEntries] at h
  | bool b => simp [_buildLinedata, jsEntries] at h
  | null =>
    simp [_buildLinedata, jsEntries] at h
    exact h.symm
  | undefined =>
    simp [_buildLinedata, jsEntries] at h
    exact h.symm

/-- An `add` whose argument has `typeof` `"object"` never throws
`'invalid_data'`. -/
theorem add_object_not_invalid (env : Env) (s : FileState) (d : JsData)
    (hOpen : s.isOpen = true) (hobj : jsTypeof d = "object") :
    (add env s d).1 ≠ .error .invalid_data := by
  unfold add
  rw [if_pos hOpen, if_neg (by simp [hobj])]
  cases hB : _buildLinedata s.fields d with
  | error e =>
    have he := buildLinedata_error_eq s.fields d e hB
    simp [he]
  | ok p =>
    obtain ⟨fs2, line⟩ := p
    dsimp only
    split
    · exact flush_not_invalid env _
    · split
      · exact flush_not_invalid env _
      · simp

/-- C5 counterexample: `add(null)` on an open file throws the
`TypeError` of `Object.keys(null)` (since `typeof null` is
`"object"`), not `'invalid_data'`. -/
theorem add_null_counterexample :
    (add env3 st3 JsData.null).1 = .error .typeError ∧
    (add env3 st3 JsData.null).1 ≠ .error .invalid_data := by
  constructor
  · rfl
  · intro h
    rw [show (add env3 st3 JsData.null).1 = .error .typeError from rfl] at h
    exact absurd h (by simp)

/-- C5 amended: on an open file, `add` throws `'invalid_data'` exactly
when the row's `typeof` is not `"object"` (scalars and `undefined`);
arrays and maps pass the check, and `null` also passes it but then
throws a `TypeError` during key enumeration. -/
theorem add_invalid_data_amended (env : Env) (s : FileState) (d : JsData)
    (hOpen : s.isOpen = true) :
    ((add env s d).1 = .error .invalid_data ↔ jsTypeof d ≠ "object") ∧
    (d = JsData.null → (add env s d).1 = .error .typeError) := by
  constructor
  · constructor
    · intro h htype
      exact add_object_not_invalid env s d hOpen htype h
    · intro h
      unfold add
      rw [if_pos hOpen, if_pos h]
  · intro hd
    subst hd
    unfold add
    rw [if_pos hOpen, if_neg (by simp [jsTypeof])]
    rfl

/-- Witness for C5 amended: a scalar number is rejected with
`'invalid_data'`. -/
theorem add_invalid_data_amended_witness :
    (add env3 st3 (JsData.num 5)).1 = .error .invalid_data :=
  (add_invalid_data_amended env3 st3 (JsData.num 5) rfl).1.mpr (by decide)

/-- C6 counterexample: constructing with the key spelled `delimiter`
set to `";"` still yields `","` as the separator, and the header line
is joined with `","` — the source reads only the key spelled
`delimeter`. -/
theorem delimiter_key_counterexample :
    Except.map (fun st => (st.delimeter, _generateCsvHeaders st)) (newFile opts6 "\n") =
      .ok (",", "\"a\",\"b\"\n") := rfl

/-- C6 amended: the configuration key spelled `delimeter` (sic)
determines the column separator, defaulting to `","` when absent; the
header (and every data line) is joined with that separator; the
correctly-spelled key `delimiter` is never read. -/
theorem delimeter_key_amended (opts : Options) (osEol : String) (st : FileState)
    (h : newFile opts osEol = .ok st) :
    st.delimeter = opts.delimeter.getD "," ∧
    _generateCsvHeaders st =
      joinWith st.delimeter (st.fields.map (fun nf => _enquote st.quote st.escape nf.1)) ++ st.eol := by
  refine ⟨?_, rfl⟩
  cases hp : opts.path with
  | none =>
    unfold newFile at h
    rw [hp] at h
    exact absurd h (by simp)
  | some p =>
    unfold newFile at h
    rw [hp] at h
    simp only [Except.ok.injEq] at h
    rw [← h]

/-- Witness for C6 amended at `opts6` (which also carries the unread
`delimiter` key). -/
theorem delimeter_key_amended_witness : st6.delimeter = "," :=
  (delimeter_key_amended opts6 "\n" st6 rfl).1

/-- C9: a named-map row is buffered with exactly one entry per schema
column known after inference, each read from the map by column name in
schema order, absent keys stored as `undefined`; an array row is
buffered exactly as given. -/
theorem buildLinedata_normalization (fs : Fields) (kvs : List (String × Value)) (xs : List Value) :
    (_buildLinedata fs (JsData.arr xs) = .ok (fs, xs)) ∧
    (∃ fs2 line, _buildLinedata fs (JsData.obj kvs) = .ok (fs2, line) ∧
      fs2 = _autodetectFields fs (kvs.map Prod.fst) ∧
      line.length = fs2.length ∧
      (∀ i name fd, fs2.get? i = some (name, fd) →
        line.get? i = some (jsIndex kvs name) ∧
        (List.find? (fun p => p.1 == name) kvs = none → line.get? i = some Value.undefined))) := by
  refine ⟨rfl, _autodetectFields fs (kvs.map Prod.fst),
    (_autodetectFields fs (kvs.map Prod.fst)).map (fun nf => jsIndex kvs nf.1),
    ?_, rfl, by simp, ?_⟩
  · rfl
  intro i name fd h
  constructor
  · rw [List.get?_map, h]
    rfl
  · intro hnone
    rw [List.get?_map, h]
    simp [jsIndex, hnone]

/-- Witness for C9: with schema `{b}` and map row `{a: "x"}`, the
buffered row reads position 0 (column `b`, absent from the map) as
`undefined`. -/
theorem buildLinedata_normalization_witness :
    [Value.undefined, Value.str "x"].get? 0 = some (jsIndex [("a", Value.str "x")] "b") := by
  obtain ⟨-, fs2, line, hobj, hfs2, -, hpt⟩ :=
    buildLinedata_normalization [("b", FieldDef.mk false)] [("a", Value.str "x")] []
  have hget : fs2.get? 0 = some ("b", FieldDef.mk false) := by rw [hfs2]; rfl
  have h0 := (hpt 0 "b" (FieldDef.mk false) hget).1
  have h2 : _buildLinedata [("b", FieldDef.mk false)] (JsData.obj [("a", Value.str "x")]) =
      .ok ([("b", FieldDef.mk false), ("a", FieldDef.mk true)], [Value.undefined, Value.str "x"]) := rfl
  rw [hobj] at h2
  simp only [Except.ok.injEq, Prod.mk.injEq] at h2
  rw [← h2.2]
  exact h0

/-- C3 counterexample: with `flushLines = 2` and three map rows A, B,
C, the single automatic flush (fired on the third `add`, after the
row was pushed) renders all three rows — including C's — and the
buffer is empty afterwards, not still holding C's row. -/
theorem scenario_flushLines2_counterexample :
    (runAdds env3 st3 [JsData.obj [("Name", Value.str "A")], JsData.obj [("Name", Value.str "B")],
      JsData.obj [("Name", Value.str "C")]]).2.1.buffer = [] ∧
    (runAdds env3 st3 [JsData.obj [("Name", Value.str "A")], JsData.obj [("Name", Value.str "B")],
      JsData.obj [("Name", Value.str "C")]]).2.2 =
      [Event.data "test.csv" "\"Name\"\n\"A\"\n\"B\"\n\"C\"\n",
       Event.write "test.csv" "\"Name\"\n\"A\"\n\"B\"\n\"C\"\n" WriteMode.overwrite "utf8"] :=
  ⟨rfl, rfl⟩

/-- C3 amended: constructing with `flushLines = 2` and adding the map
rows `{Name:"A"}`, `{Name:"B"}`, `{Name:"C"}` to a new destination
with default options produces exactly one automatic flush, fired on
the third `add`, whose rendered text contains the lines for A, B and
C prefixed by the header line `"Name"`, with the buffer empty
afterwards. -/
theorem scenario_flushLines2_amended :
    newFile { path := some (PathOption.str "test.csv"), flushLines := some 2 } "\n" = .ok st3 ∧
    (runAdds env3 st3 [JsData.obj [("Name", Value.str "A")], JsData.obj [("Name", Value.str "B")]]).2.2 = [] ∧
    (runAdds env3 st3 [JsData.obj [("Name", Value.str "A")], JsData.obj [("Name", Value.str "B")],
      JsData.obj [("Name", Value.str "C")]]).1 = .ok () ∧
    (runAdds env3 st3 [JsData.obj [("Name", Value.str "A")], JsData.obj [("Name", Value.str "B")],
      JsData.obj [("Name", Value.str "C")]]).2.2 =
      [Event.data "test.csv" ("\"Name\"\n" ++ "\"A\"\n\"B\"\n\"C\"\n"),
       Event.write "test.csv" ("\"Name\"\n" ++ "\"A\"\n\"B\"\n\"C\"\n") WriteMode.overwrite "utf8"] ∧
    (runAdds env3 st3 [JsData.obj [("Name", Value.str "A")], JsData.obj [("Name", Value.str "B")],
      JsData.obj [("Name", Value.str "C")]]).2.1.buffer = [] :=
  ⟨rfl, rfl, rfl, rfl, rfl⟩

/-- Destination resolution ignores the mutable parts of the state. -/
theorem getPath_update (env : Env) (s : FileState) (f : Fields) (b : List (List Value)) :
    _getPath env { s with fields := f, buffer := b } = _getPath env s := rfl

/-- Unfolding `runAdds` after a successful `add`. -/
theorem runAdds_cons_ok (env : Env) (s : FileState) (d : JsData) (s1 : FileState)
    (evs1 : List Event) (ds : List JsData) (h : add env s d = (.ok (), s1, evs1)) :
    runAdds env s (d :: ds) =
      ((runAdds env s1 ds).1, (runAdds env s1 ds).2.1, evs1 ++ (runAdds env s1 ds).2.2) := by
  simp only [runAdds, h]

/-- Unfolding `runAdds` after a throwing `add`. -/
theorem runAdds_cons_err (env : Env) (s : FileState) (d : JsData) (e : JsError)
    (s1 : FileState) (evs1 : List Event) (ds : List JsData)
    (h : add env s d = (.error e, s1, evs1)) :
    runAdds env s (d :: ds) = (.error e, s1, evs1) := by
  simp only [runAdds, h]

/-- A one-element run is just its `add`. -/
theorem runAdds_singleton (env : Env) (s : FileState) (d : JsData) (s1 : FileState)
    (evs1 : List Event) (h : add env s d = (.ok (), s1, evs1)) :
    runAdds env s [d] = (.ok (), s1, evs1) := by
  rw [runAdds_cons_ok env s d s1 evs1 [] h]
  simp [runAdds]

/-- An `add` that stays below a positive row-count threshold buffers
the built line, grows the schema, and does nothing else. -/
theorem add_noflush (env : Env) (s : FileState) (d : JsData) (fs2 : Fields) (line : List Value)
    (hOpen : s.isOpen = true) (hobj : jsTypeof d = "object")
    (hB : _buildLinedata s.fields d = .ok (fs2, line))
    (hpos : 0 < s.flushLines) (hlen : s.buffer.length + 1 ≤ s.flushLines) :
    add env s d = (.ok (), { s with fields := fs2, buffer := s.buffer ++ [line] }, []) := by
  unfold add
  rw [if_pos hOpen, if_neg (by simp [hobj]), hB]
  dsimp only
  rw [if_neg (by simp; omega), if_neg (by simp; omega)]

/-- A successful run of a prefix is forced by a successful run of the
whole sequence. -/
theorem runAdds_prefix_ok : ∀ (xs ys : List JsData) (env : Env) (s : FileState),
    (runAdds env s (xs ++ ys)).1 = .ok () → (runAdds env s xs).1 = .ok () := by
  intro xs
  induction xs with
  | nil => intro ys env s _; rfl
  | cons x xs ih =>
    intro ys env s h
    cases hA : add env s x with
    | mk r rest =>
      cases rest with
      | mk s1 evs1 =>
        cases r with
        | ok u =>
          cases u
          rw [List.cons_append, runAdds_cons_ok env s x s1 evs1 (xs ++ ys) hA] at h
          rw [runAdds_cons_ok env s x s1 evs1 xs hA]
          exact ih ys env s1 h
        | error e =>
          rw [List.cons_append, runAdds_cons_err env s x e s1 evs1 (xs ++ ys) hA] at h
          exact absurd h (by simp)

/-- Splitting a run at a successful prefix. -/
theorem runAdds_append_ok : ∀ (xs : List JsData) (env : Env) (s s1 : FileState)
    (evs1 : List Event) (ys : List JsData),
    runAdds env s xs = (.ok (), s1, evs1) →
    runAdds env s (xs ++ ys) =
      ((runAdds env s1 ys).1, (runAdds env s1 ys).2.1, evs1 ++ (runAdds env s1 ys).2.2) := by
  intro xs
  induction xs with
  | nil =>
    intro env s s1 evs1 ys h
    simp only [runAdds, Prod.mk.injEq] at h
    obtain ⟨-, hs, hevs⟩ := h
    subst hs
    subst hevs
    rfl
  | cons x xs ih =>
    intro env s s1 evs1 ys h
    cases hA : add env s x with
    | mk r rest =>
      cases rest with
      | mk sa ea =>
        cases r with
        | error e =>
          rw [runAdds_cons_err env s x e sa ea xs hA] at h
          exact absurd h (by simp)
        | ok u =>
          cases u
          rw [runAdds_cons_ok env s x sa ea xs hA] at h
          simp only [Prod.mk.injEq] at h
          obtain ⟨h1, h2, h3⟩ := h
          have hx : runAdds env sa xs =
              ((runAdds env sa xs).1, (runAdds env sa xs).2.1, (runAdds env sa xs).2.2) := rfl
          rw [h1, h2] at hx
          have hrec := ih env sa s1 (runAdds env sa xs).2.2 ys hx
          rw [List.cons_append, runAdds_cons_ok env s x sa ea (xs ++ ys) hA, hrec]
          simp [← h3, List.append_assoc]

/-- Appending one more row to a schema-level normalization. -/
theorem normalizeListF_snoc : ∀ (xs : List JsData) (fs fs1 : Fields)
    (lines1 : List (List Value)) (d : JsData) (fs2 : Fields) (line : List Value),
    normalizeListF fs xs = .ok (fs1, lines1) → _buildLinedata fs1 d = .ok (fs2, line) →
    normalizeListF fs (xs ++ [d]) = .ok (fs2, lines1 ++ [line]) := by
  intro xs
  induction xs with
  | nil =>
    intro fs fs1 lines1 d fs2 line h1 h2
    simp only [normalizeListF, Except.ok.injEq, Prod.mk.injEq] at h1
    obtain ⟨hfs, hlines⟩ := h1
    subst hfs
    subst hlines
    simp [normalizeListF, h2]
  | cons x xs ih =>
    intro fs fs1 lines1 d fs2 line h1 h2
    simp only [normalizeListF] at h1
    split at h1
    · exact absurd h1 (by simp)
    · rename_i fsx lx heqB
      split at h1
      · exact absurd h1 (by simp)
      · rename_i fs1x linesx heqN
        simp only [Except.ok.injEq, Prod.mk.injEq] at h1
        obtain ⟨hfs1, hlines1⟩ := h1
        subst hfs1
        subst hlines1
        have hrec := ih fsx fs1x linesx d fs2 line heqN h2
        simp [normalizeListF, heqB, hrec]

/-- A successful run that stays at or below a positive row-count
threshold never flushes: it emits no events and ends with the
normalized rows appended to the buffer and the inferred schema. -/
theorem runAdds_noflush : ∀ (ds : List JsData) (env : Env) (s : FileState),
    (runAdds env s ds).1 = .ok () → s.isOpen = true → 0 < s.flushLines →
    s.buffer.length + ds.length ≤ s.flushLines →
    ∃ fsN lines, normalizeListF s.fields ds = .ok (fsN, lines) ∧
      lines.length = ds.length ∧
      runAdds env s ds = (.ok (), { s with fields := fsN, buffer := s.buffer ++ lines }, []) := by
  intro ds
  induction ds with
  | nil =>
    intro env s _ _ _ _
    exact ⟨s.fields, [], rfl, rfl, by simp [runAdds]⟩
  | cons d ds ih =>
    intro env s hOk hOpen hpos hlen
    by_cases hobj : jsTypeof d = "object"
    case neg =>
      have hA : add env s d = (.error .invalid_data, s, []) := by
        unfold add
        rw [if_pos hOpen, if_pos hobj]
      rw [runAdds_cons_err env s d _ s [] ds hA] at hOk
      exact absurd hOk (by simp)
    case pos =>
      cases hB : _buildLinedata s.fields d with
      | error e =>
        have hA : add env s d = (.error e, s, []) := by
          unfold add
          rw [if_pos hOpen, if_neg (by simp [hobj]), hB]
        rw [runAdds_cons_err env s d e s [] ds hA] at hOk
        exact absurd hOk (by simp)
      | ok p =>
        obtain ⟨fs2, line⟩ := p
        have hlen1 : s.buffer.length + 1 ≤ s.flushLines := by
          simp only [List.length_cons] at hlen
          omega
        have hA := add_noflush env s d fs2 line hOpen hobj hB hpos hlen1
        rw [runAdds_cons_ok env s d _ [] ds hA] at hOk ⊢
        dsimp only at hOk
        have hih := ih env { s with fields := fs2, buffer := s.buffer ++ [line] } hOk hOpen hpos
          (by simp at hlen ⊢; omega)
        obtain ⟨fsN, lines, hnorm, hlinlen, hrun⟩ := hih
        refine ⟨fsN, line :: lines, ?_, by simp [hlinlen], ?_⟩
        · simp only [normalizeListF, hB]
          dsimp only at hnorm
          rw [hnorm]
        · rw [hrun]
          simp [List.append_assoc]

/-- An `add` that makes the buffer length strictly exceed a positive
row-count threshold flushes the state holding the freshly pushed
line. -/
theorem add_autoflush (env : Env) (s : FileState) (d : JsData) (fs2 : Fields)
    (line : List Value) (hOpen : s.isOpen = true) (hobj : jsTypeof d = "object")
    (hB : _buildLinedata s.fields d = .ok (fs2, line))
    (hpos : 0 < s.flushLines) (hlen : s.buffer.length + 1 > s.flushLines) :
    add env s d = flush env { s with fields := fs2, buffer := s.buffer ++ [line] } := by
  unfold add
  rw [if_pos hOpen, if_neg (by simp [hobj]), hB]
  dsimp only
  rw [if_pos (by simp; omega)]

/-- C2: with a row-count threshold `N > 0`, a successful sequence of
exactly `N+1` `add` calls (no explicit flush; interval flushing is not
modelled as firing) from an empty buffer produces no events on the
first `N` adds and exactly one `'data'` notification in total — fired
by the add that makes the buffer length strictly exceed `N` — whose
text renders all `N+1` buffered rows, with the buffer empty
afterwards. -/
theorem add_threshold_autoflush (env : Env) (s : FileState) (ds : List JsData) (N : Nat)
    (hOpen : s.isOpen = true) (hBuf : s.buffer = []) (hN : s.flushLines = N) (hNpos : 0 < N)
    (hLen : ds.length = N + 1) (hOk : (runAdds env s ds).1 = .ok ()) :
    (runAdds env s (ds.take N)).2.2 = [] ∧
    (runAdds env s ds).2.1.buffer = [] ∧
    ∃ fsAll lines body,
      normalizeListF s.fields ds = .ok (fsAll, lines) ∧ lines.length = N + 1 ∧
      _generateCsvData { s with fields := fsAll, buffer := lines } = .ok body ∧
      (runAdds env s ds).2.2.filter Event.isData =
        [Event.data (_getPath env s)
          (flushHeader env { s with fields := fsAll, buffer := lines } ++ body)] := by
  have hne : ds ≠ [] := by
    intro h
    rw [h] at hLen
    simp at hLen
  have hsplit : ds.dropLast ++ [ds.getLast hne] = ds := List.dropLast_append_getLast hne
  set ds0 := ds.dropLast with hds0
  set dL := ds.getLast hne with hdL
  have hlen0 : ds0.length = N := by
    rw [hds0, List.length_dropLast, hLen]
    omega
  have hpos' : 0 < s.flushLines := by rw [hN]; exact hNpos
  have hOk0 : (runAdds env s ds0).1 = .ok () :=
    runAdds_prefix_ok ds0 [dL] env s (by rw [hsplit]; exact hOk)
  obtain ⟨fsN, lines0, hnorm0, hlin0, hrun0⟩ := runAdds_noflush ds0 env s hOk0 hOpen hpos'
    (by rw [hBuf, hN]; simp [hlen0])
  have htake : ds.take N = ds0 := by
    rw [← hlen0]
    conv_lhs => rw [← hsplit]
    exact List.take_left ds0 [dL]
  set sN : FileState := { s with fields := fsN, buffer := s.buffer ++ lines0 } with hsN
  have happ := runAdds_append_ok ds0 env s sN [] [dL] hrun0
  rw [hsplit] at happ
  have hOkL : (runAdds env sN [dL]).1 = .ok () := by
    rw [happ] at hOk
    exact hOk
  have hsNopen : sN.isOpen = true := hOpen
  have hsNbuf : sN.buffer = lines0 := by
    simp [hsN, hBuf]
  by_cases hobj : jsTypeof dL = "object"
  case neg =>
    have hA : add env sN dL = (.error .invalid_data, sN, []) := by
      unfold add
      rw [if_pos hsNopen, if_pos hobj]
    rw [runAdds_cons_err env sN dL _ sN [] [] hA] at hOkL
    exact absurd hOkL (by simp)
  case pos =>
  cases hB : _buildLinedata sN.fields dL with
  | error e =>
    have hA : add env sN dL = (.error e, sN, []) := by
      unfold add
      rw [if_pos hsNopen, if_neg (by simp [hobj]), hB]
    rw [runAdds_cons_err env sN dL e sN [] [] hA] at hOkL
    exact absurd hOkL (by simp)
  | ok p =>
    obtain ⟨fsL, lineL⟩ := p
    have hBf : _buildLinedata fsN dL = .ok (fsL, lineL) := by
      rw [hsN] at hB
      exact hB
    have hposN : 0 < sN.flushLines := hpos'
    have hlenN : sN.buffer.length + 1 > sN.flushLines := by
      rw [hsNbuf, show sN.flushLines = s.flushLines from rfl, hN]
      simp [hlin0, hlen0]
    have hs3eq : ({ sN with fields := fsL, buffer := sN.buffer ++ [lineL] } : FileState) =
        { s with fields := fsL, buffer := lines0 ++ [lineL] } := by
      rw [hsN]
      simp [hBuf]
    have hAdd : add env sN dL =
        flush env { s with fields := fsL, buffer := lines0 ++ [lineL] } := by
      rw [add_autoflush env sN dL fsL lineL hsNopen hobj hB hposN hlenN, hs3eq]
    have hMopen : ({ s with fields := fsL, buffer := lines0 ++ [lineL] } : FileState).isOpen = true := hOpen
    have hMne : ({ s with fields := fsL, buffer := lines0 ++ [lineL] } : FileState).buffer ≠ [] := by
      simp
    cases hgen : _generateCsvData { s with fields := fsL, buffer := lines0 ++ [lineL] } with
    | error e =>
      have hA2 : add env sN dL =
          (.error e, { s with fields := fsL, buffer := lines0 ++ [lineL] }, []) := by
        rw [hAdd, flush_render_error env _ e hMopen hMne hgen]
      rw [runAdds_cons_err env sN dL e _ [] [] hA2] at hOkL
      exact absurd hOkL (by simp)
    | ok body =>
      have hFl := flush_dispatch env { s with fields := fsL, buffer := lines0 ++ [lineL] }
        body hMopen hMne hgen
      have hA2 := hAdd.trans hFl
      have hrunL := runAdds_singleton env sN dL _ _ hA2
      refine ⟨?_, ?_, fsL, lines0 ++ [lineL], body, ?_, ?_, hgen, ?_⟩
      · rw [htake, hrun0]
      · rw [happ, hrunL]
      · rw [← hsplit]
        exact normalizeListF_snoc ds0 s.fields fsN lines0 dL fsL lineL hnorm0 hBf
      · simp [hlin0, hlen0]
      · rw [happ, hrunL]
        have hfe : (flushEvents env { s with fields := fsL, buffer := lines0 ++ [lineL] }
              body).filter Event.isData =
            [Event.data (_getPath env ({ s with fields := fsL, buffer := lines0 ++ [lineL] } : FileState))
              (flushHeader env { s with fields := fsL, buffer := lines0 ++ [lineL] } ++ body)] := by
          simp only [flushEvents]
          split
          · simp [List.filter, Event.isData]
          · simp [List.filter, Event.isData]
        simp only [List.nil_append]
        rw [hfe, getPath_update]

/-- Witness for C2 at threshold 1 with two map rows: the second add
dispatches the single flush containing both rows. -/
theorem add_threshold_autoflush_witness :
    0 < 1 ∧
    (runAdds env3 st2 [JsData.obj [("Name", Value.str "A")], JsData.obj [("Name", Value.str "B")]]).1 = .ok () ∧
    ((runAdds env3 st2 ([JsData.obj [("Name", Value.str "A")], JsData.obj [("Name", Value.str "B")]].take 1)).2.2 = [] ∧
      (runAdds env3 st2 [JsData.obj [("Name", Value.str "A")], JsData.obj [("Name", Value.str "B")]]).2.1.buffer = [] ∧
      ∃ fsAll lines body,
        normalizeListF st2.fields [JsData.obj [("Name", Value.str "A")], JsData.obj [("Name", Value.str "B")]] = .ok (fsAll, lines) ∧
        lines.length = 1 + 1 ∧
        _generateCsvData { st2 with fields := fsAll, buffer := lines } = .ok body ∧
        (runAdds env3 st2 [JsData.obj [("Name", Value.str "A")], JsData.obj [("Name", Value.str "B")]]).2.2.filter Event.isData =
          [Event.data (_getPath env3 st2)
            (flushHeader env3 { st2 with fields := fsAll, buffer := lines } ++ body)]) :=
  ⟨by decide, rfl, add_threshold_autoflush env3 st2 _ 1 rfl rfl rfl (by decide) rfl rfl⟩

end BufferedCsv
